import Mathlib

/-!
Verification of the Inquiry Classification subsystem of the monozukuri-ai
repository against its natural-language specification.

The repository ships the React frontend (apps/web), its tests, and the design
documents for the Python FastAPI classification backend; the backend modules
themselves (app/services/classification.py, app/security/rate_limiter.py,
app/security/sanitizer.py, ...) are not part of the source tree.  Where a
claim is decided by those missing modules, the corresponding definition below
is modelled from the specification and is marked as such in its doc comment.
Frontend code (inquiryStore.ts) and the code snippets embedded in the
architecture decision record ADR-001 are embedded directly from the source.

Python strings are modelled as `List Char` (Python `len` counts code points),
timestamps and confidence scores as `ℚ`, and SHA-256 hashing is implemented
over `Nat` with explicit reduction mod 2^32.
-/

namespace Service

/-- The fixed closed category set of the classification service
(ADR-001 prompt template and the feature README `CategoryType`). -/
inductive Category where
  | QUOTE_REQUEST
  | TECHNICAL_SPECIFICATION
  | CAPABILITY_QUESTION
  | PARTNERSHIP_INQUIRY
  | GENERAL_INQUIRY
  | UNKNOWN
deriving DecidableEq, Repr

/-- Detected language of an inquiry (feature README: `'en' | 'ja' | 'other'`). -/
inductive Lang where
  | en
  | ja
  | other
deriving DecidableEq, Repr

/-- Modelled from the spec (§3 ClassificationResult): the record returned by
the classification service.  The opaque `id` is omitted; confidence scores are
rationals in place of floats. -/
structure ClassificationResult where
  primary_category : Category
  confidence : ℚ
  all_categories : List (Category × ℚ)
  detected_language : Lang
  suggested_keywords : List String
  processing_time_ms : Nat
  fallback_used : Bool
deriving DecidableEq, Repr

/-- Ordering used for `all_categories`: descending by confidence. -/
def confGE (a b : Category × ℚ) : Prop := b.2 ≤ a.2

instance : DecidableRel confGE := fun a b => inferInstanceAs (Decidable (b.2 ≤ a.2))

instance : IsTotal (Category × ℚ) confGE := ⟨fun a b => le_total b.2 a.2⟩

instance : IsTrans (Category × ℚ) confGE := ⟨fun _ _ _ h1 h2 => le_trans h2 h1⟩

/-- Modelled from the spec (§3, feature README requirement "Return all
potential categories ranked by confidence (>0.1 threshold)"): keep the scores
above the 0.1 threshold and rank them in descending confidence order. -/
def rankCategories (scores : List (Category × ℚ)) : List (Category × ℚ) :=
  (scores.filter (fun p => decide (mkRat 1 10 < p.2))).insertionSort confGE

/-- Modelled from the spec (§3): assemble a `ClassificationResult` from raw
category scores.  The primary category is the top-ranked entry; when no score
clears the 0.1 threshold no result can be assembled. -/
def mkClassificationResult (scores : List (Category × ℚ)) (lang : Lang)
    (kws : List String) (ptime : Nat) (fb : Bool) : Option ClassificationResult :=
  match rankCategories scores with
  | [] => none
  | top :: rest =>
    some { primary_category := top.1
           confidence := top.2
           all_categories := top :: rest
           detected_language := lang
           suggested_keywords := kws
           processing_time_ms := ptime
           fallback_used := fb }

/-- A cache fingerprint, i.e. the hex digest string used as the cache key. -/
abbrev Fingerprint := List Char

/-- Modelled from the spec (§3 CacheEntry): an immutable cache entry carrying
the cached result and its expiry timestamp (seconds). -/
structure CacheEntry where
  result : ClassificationResult
  expires_at : ℚ

/-- The cache tier, as a map from fingerprints to entries. -/
def Cache := Fingerprint → Option CacheEntry

/-- The empty cache. -/
def emptyCache : Cache := fun _ => none

/-- Modelled from the spec (§3/§4.3 and the ADR-001 caching strategy):
TTL in seconds selected by confidence band: high (≥0.9) → 24 h,
medium (0.7–0.9) → 1 h, low (<0.7) → not cached. -/
def ttlFor (confidence : ℚ) : Option ℚ :=
  if mkRat 9 10 ≤ confidence then some 86400
  else if mkRat 7 10 ≤ confidence then some 3600
  else none

/-- Modelled from the spec (§4.3 `store`): write a result under its
fingerprint with the band-selected TTL; low-confidence results are not
written at all. -/
def store (c : Cache) (fp : Fingerprint) (r : ClassificationResult) (now : ℚ) : Cache :=
  match ttlFor r.confidence with
  | some ttl => fun k => if k = fp then some { result := r, expires_at := now + ttl } else c k
  | none => c

/-- Modelled from the spec (§4.3 `lookup` with lazy expiry): a stored entry is
returned only while unexpired. -/
def lookup (c : Cache) (fp : Fingerprint) (now : ℚ) : Option ClassificationResult :=
  match c fp with
  | some e => if now < e.expires_at then some e.result else none
  | none => none

/-- A low-confidence result used as a concrete witness input. -/
def lowConfResult : ClassificationResult :=
  { primary_category := Category.GENERAL_INQUIRY
    confidence := mkRat 1 2
    all_categories := [(Category.GENERAL_INQUIRY, mkRat 1 2)]
    detected_language := Lang.en
    suggested_keywords := []
    processing_time_ms := 1
    fallback_used := false }

/-- Outcome of the rate-limiter admission gate (spec §4.4). -/
inductive RateDecision where
  | allowed
  | denied (retry_after : ℚ)

/-- Modelled from the spec (§3 RateBucket): one token bucket per client.
`tokens` are fractional, `refill_rate` is tokens per second, timestamps are
seconds. -/
structure RateBucket where
  tokens : ℚ
  capacity : ℚ
  refill_rate : ℚ
  last_refill : ℚ

/-- Modelled from the spec (§4.4): tokens refilled proportionally to the time
elapsed since `last_refill`, capped at capacity. -/
def refill (b : RateBucket) (now : ℚ) : ℚ :=
  min b.capacity (b.tokens + (now - b.last_refill) * b.refill_rate)

/-- Modelled from the spec (§4.4): the spec names this operation after
admission; that name is a Lean tactic keyword, so it is `tryAcquire` here.
Refill, then deduct one token if available (Allowed), otherwise Denied
carrying the time until one token will be available. -/
def tryAcquire (b : RateBucket) (now : ℚ) : RateDecision × RateBucket :=
  let t := refill b now
  if 1 ≤ t then
    (RateDecision.allowed, { b with tokens := t - 1, last_refill := now })
  else
    (RateDecision.denied ((1 - t) / b.refill_rate), { b with tokens := t, last_refill := now })

/-- A drained bucket used as a concrete witness input. -/
def drainedBucket : RateBucket :=
  { tokens := 0, capacity := 0, refill_rate := 1, last_refill := 0 }

/-- Python-style character predicates used by the text pipeline.  `pyIsSpace`
matches Python `str.strip` / `str.split` whitespace. -/
def pyIsSpace (c : Char) : Bool :=
  c = ' ' || c = '\t' || c = '\n' || c = '\r' || c = '\x0b' || c = '\x0c'

/-- Lower-casing, as Python `str.lower` restricted to ASCII letters. -/
def pyLower (l : List Char) : List Char := l.map Char.toLower

/-- Python `str.strip`: drop leading and trailing whitespace. -/
def pyStrip (l : List Char) : List Char :=
  ((l.dropWhile pyIsSpace).reverse.dropWhile pyIsSpace).reverse

/-- A control character: non-printing, and not whitespace (whitespace is the
business of whitespace normalization). -/
def isControlChar (c : Char) : Bool :=
  (decide (c.toNat < 32) && !(pyIsSpace c)) || c.toNat = 127

/-- Strip control characters (spec §4.1). -/
def stripControl (l : List Char) : List Char := l.filter (fun c => !(isControlChar c))

/-- Collapse every run of whitespace into a single space. -/
def collapseWs : List Char → List Char
  | [] => []
  | [c] => [if pyIsSpace c then ' ' else c]
  | c1 :: c2 :: rest =>
    if pyIsSpace c1 && pyIsSpace c2 then collapseWs (c2 :: rest)
    else (if pyIsSpace c1 then ' ' else c1) :: collapseWs (c2 :: rest)

/-- Whitespace normalization: collapse internal runs and trim the ends. -/
def normalizeWs (l : List Char) : List Char := pyStrip (collapseWs l)

/-- Validation failures of the input sanitizer (spec §4.1). -/
inductive ValidationError where
  | TooShort
  | TooLong
deriving DecidableEq, Repr

/-- Modelled from the spec (§4.1 Input Sanitizer): enforce the 10–5000
character bounds on the submitted text, failing with `TooShort`/`TooLong`;
in-bounds text is cleaned (control characters stripped, whitespace
normalized) and accepted. -/
def sanitize (text : List Char) : Except ValidationError (List Char) :=
  if text.length < 10 then Except.error ValidationError.TooShort
  else if 5000 < text.length then Except.error ValidationError.TooLong
  else Except.ok (normalizeWs (stripControl text))

/-- CJK script ranges (Hiragana, Katakana, CJK punctuation, CJK Unified
Ideographs), used by the language detector heuristic. -/
def isCJK (c : Char) : Bool :=
  (0x3000 ≤ c.toNat && c.toNat ≤ 0x30FF) || (0x4E00 ≤ c.toNat && c.toNat ≤ 0x9FFF)

/-- An ASCII Latin letter. -/
def isLatinLetter (c : Char) : Bool :=
  ('A' ≤ c && c ≤ 'Z') || ('a' ≤ c && c ≤ 'z')

/-- Latin-heavy text: more than half of the characters are Latin letters. -/
def latinHeavy (l : List Char) : Bool :=
  decide (l.length < 2 * l.countP isLatinLetter)

/-- Modelled from the spec (§4.2 Language Detector): single-pass
script/character-range heuristic; CJK code points → `ja`, otherwise
Latin-heavy → `en`, else `other`.  Total by construction. -/
def detect (text : List Char) : Lang :=
  if text.any isCJK then Lang.ja
  else if latinHeavy text then Lang.en
  else Lang.other

/-- `pat` is a prefix of the second list. -/
def headMatches : List Char → List Char → Bool
  | [], _ => true
  | _ :: _, [] => false
  | p :: ps, c :: cs => p = c && headMatches ps cs

/-- Contiguous-substring search used by the fallback keyword matcher. -/
def hasSub (pat : List Char) : List Char → Bool
  | [] => pat.isEmpty
  | c :: cs => headMatches pat (c :: cs) || hasSub pat cs

/-- Pricing/quantity terms indicating a quote request (spec §4.5). -/
def quoteKeywords : List (List Char) :=
  ["quote", "pricing", "price", "estimate", "見積"].map String.toList

/-- Tolerance/material/spec terms (spec §4.5). -/
def techKeywords : List (List Char) :=
  ["tolerance", "specification", "material", "dimension", "公差"].map String.toList

/-- Capability terms (spec §4.5). -/
def capabilityKeywords : List (List Char) :=
  ["can you", "capability", "capacity", "製造できます"].map String.toList

/-- Partnership terms (spec §4.5). -/
def partnershipKeywords : List (List Char) :=
  ["partnership", "partner", "collaboration", "提携"].map String.toList

/-- Raw keyword scores of the fallback rule classifier on lower-cased text,
in the deliberately conservative 0.70–0.75 confidence band (spec §4.5). -/
def fallbackScores (t : List Char) : List (Category × ℚ) :=
  (if quoteKeywords.any (fun k => hasSub k t) then [(Category.QUOTE_REQUEST, mkRat 3 4)] else [])
  ++ (if techKeywords.any (fun k => hasSub k t) then [(Category.TECHNICAL_SPECIFICATION, mkRat 18 25)] else [])
  ++ (if capabilityKeywords.any (fun k => hasSub k t) then [(Category.CAPABILITY_QUESTION, mkRat 71 100)] else [])
  ++ (if partnershipKeywords.any (fun k => hasSub k t) then [(Category.PARTNERSHIP_INQUIRY, mkRat 7 10)] else [])

/-- Modelled from the spec (§4.5 Fallback Rule Classifier): deterministic
keyword/pattern classification that always succeeds, never calls external
services, and always sets `fallback_used = true`.  Text with no keyword match
is classified `GENERAL_INQUIRY`. -/
def classify_fallback (text : List Char) (lang : Lang) : ClassificationResult :=
  match mkClassificationResult (fallbackScores (pyLower text)) lang [] 0 true with
  | some r => r
  | none =>
    { primary_category := Category.GENERAL_INQUIRY
      confidence := mkRat 7 10
      all_categories := [(Category.GENERAL_INQUIRY, mkRat 7 10)]
      detected_language := lang
      suggested_keywords := []
      processing_time_ms := 0
      fallback_used := true }

/-- Failure modes of the LLM classifier adapter (spec §4.6). -/
inductive LlmError where
  | Timeout
  | ProviderError
  | ParseError

/-- Modelled from the spec (§4.7 Classification Orchestrator state machine):
cache lookup, then the rate gate, then the LLM call with confidence check;
every failure mode downgrades to the fallback rule classifier, and a
successful high-confidence LLM result is stored in the cache.  The outcome of
the (external) LLM adapter call is passed in as an `Except` value.  The
return type carries no error case: the orchestrator never propagates a
failure to its caller. -/
def orchestrate (text : List Char) (lang : Lang) (cache : Cache) (fp : Fingerprint)
    (now : ℚ) (rate : RateDecision) (llm : Except LlmError ClassificationResult)
    (floor : ℚ) : ClassificationResult × Cache :=
  match lookup cache fp now with
  | some r => (r, cache)
  | none =>
    match rate with
    | RateDecision.denied _ => (classify_fallback text lang, cache)
    | RateDecision.allowed =>
      match llm with
      | Except.error _ => (classify_fallback text lang, cache)
      | Except.ok r =>
        if r.confidence < floor then (classify_fallback text lang, cache)
        else (r, store cache fp r now)

/-- State of the single-flight mechanism (spec §5): the number of outstanding
upstream LLM classifications per fingerprint. -/
structure FlightState where
  inflight : Fingerprint → Nat

/-- Initially nothing is in flight. -/
def initialFlightState : FlightState := ⟨fun _ => 0⟩

/-- Modelled from the spec (§4.3/§5 single-flight): an upstream classification
for a fingerprint may start only when none is outstanding for it (concurrent
requests for the same fingerprint await the in-flight result instead);
a finished classification leaves the in-flight set.  Steps for distinct
fingerprints interleave freely. -/
inductive FlightStep : FlightState → FlightState → Prop where
  | start (s : FlightState) (fp : Fingerprint) (h : s.inflight fp = 0) :
      FlightStep s ⟨fun k => if k = fp then 1 else s.inflight k⟩
  | finish (s : FlightState) (fp : Fingerprint) (h : 0 < s.inflight fp) :
      FlightStep s ⟨fun k => if k = fp then s.inflight fp - 1 else s.inflight k⟩

/-- States reachable from the initial state by single-flight steps. -/
inductive FlightReachable : FlightState → Prop where
  | init : FlightReachable initialFlightState
  | step {s s' : FlightState} : FlightReachable s → FlightStep s s' → FlightReachable s'

/-- UTF-8 encoding of one character (Python `str.encode`). -/
def utf8Char (c : Char) : List Nat :=
  let n := c.toNat
  if n < 0x80 then [n]
  else if n < 0x800 then [0xC0 + n / 64, 0x80 + n % 64]
  else if n < 0x10000 then [0xE0 + n / 4096, 0x80 + (n / 64) % 64, 0x80 + n % 64]
  else [0xF0 + n / 262144, 0x80 + (n / 4096) % 64, 0x80 + (n / 64) % 64, 0x80 + n % 64]

/-- UTF-8 encoding of a string (as its byte values). -/
def utf8Bytes (l : List Char) : List Nat := (l.map utf8Char).flatten

end Service

namespace Service.SHA256

/-- The SHA-256 word modulus 2^32. -/
def M32 : Nat := 4294967296

/-- Right rotation of a 32-bit word by `n`. -/
def rotr (n x : Nat) : Nat := x / 2 ^ n + x % 2 ^ n * 2 ^ (32 - n)

/-- FIPS 180-4 Σ0. -/
def bigSigma0 (x : Nat) : Nat := (rotr 2 x) ^^^ (rotr 13 x) ^^^ (rotr 22 x)

/-- FIPS 180-4 Σ1. -/
def bigSigma1 (x : Nat) : Nat := (rotr 6 x) ^^^ (rotr 11 x) ^^^ (rotr 25 x)

/-- FIPS 180-4 σ0. -/
def smallSigma0 (x : Nat) : Nat := (rotr 7 x) ^^^ (rotr 18 x) ^^^ (x / 8)

/-- FIPS 180-4 σ1. -/
def smallSigma1 (x : Nat) : Nat := (rotr 17 x) ^^^ (rotr 19 x) ^^^ (x / 1024)

/-- FIPS 180-4 Ch, with 32-bit complement. -/
def chooseFn (x y z : Nat) : Nat := (x &&& y) ^^^ ((x ^^^ 4294967295) &&& z)

/-- FIPS 180-4 Maj. -/
def majorityFn (x y z : Nat) : Nat := (x &&& y) ^^^ (x &&& z) ^^^ (y &&& z)

/-- The 64 SHA-256 round constants of FIPS 180-4 (in decimal). -/
def K : List Nat :=
  [1116352408, 1899447441, 3049323471, 3921009573, 961987163,
   1508970993, 2453635748, 2870763221, 3624381080, 310598401,
   607225278, 1426881987, 1925078388, 2162078206, 2614888103,
   3248222580, 3835390401, 4022224774, 264347078, 604807628,
   770255983, 1249150122, 1555081692, 1996064986, 2554220882,
   2821834349, 2952996808, 3210313671, 3336571891, 3584528711,
   113926993, 338241895, 666307205, 773529912, 1294757372,
   1396182291, 1695183700, 1986661051, 2177026350, 2456956037,
   2730485921, 2820302411, 3259730800, 3345764771, 3516065817,
   3600352804, 4094571909, 275423344, 430227734, 506948616,
   659060556, 883997877, 958139571, 1322822218, 1537002063,
   1747873779, 1955562222, 2024104815, 2227730452, 2361852424,
   2428436474, 2756734187, 3204031479, 3329325298]

/-- The initial hash value H(0) of FIPS 180-4 (in decimal). -/
def H0 : List Nat :=
  [1779033703, 3144134277, 1013904242, 2773480762, 1359893119,
   2600822924, 528734635, 1541459225]

/-- Extend the 16 message words of a block to the 64-word schedule. -/
def schedule (m : List Nat) : List Nat :=
  (List.range 48).foldl
    (fun w _ =>
      let n := w.length
      w ++ [(smallSigma1 (w.getD (n - 2) 0) + w.getD (n - 7) 0
              + smallSigma0 (w.getD (n - 15) 0) + w.getD (n - 16) 0) % M32])
    m

/-- One compression round on the eight working variables. -/
def compressRound (st : List Nat) (wk : Nat) : List Nat :=
  match st with
  | [a, b, c, d, e, f, g, h] =>
    let t1 := (h + bigSigma1 e + chooseFn e f g + wk) % M32
    let t2 := (bigSigma0 a + majorityFn a b c) % M32
    [(t1 + t2) % M32, a, b, c, (d + t1) % M32, e, f, g]
  | st => st

/-- Compress one 16-word block into the running hash. -/
def compressBlock (h : List Nat) (m : List Nat) : List Nat :=
  let wk := (schedule m).zipWith (fun w k => (w + k) % M32) K
  h.zipWith (fun a b => (a + b) % M32) (wk.foldl compressRound h)

/-- Big-endian bytes of the 64-bit message bit length. -/
def len8 (n : Nat) : List Nat :=
  [n / 2 ^ 56 % 256, n / 2 ^ 48 % 256, n / 2 ^ 40 % 256, n / 2 ^ 32 % 256,
   n / 2 ^ 24 % 256, n / 2 ^ 16 % 256, n / 2 ^ 8 % 256, n % 256]

/-- SHA-256 padding: append 0x80, zero-pad so the length is 56 mod 64, then
append the bit length. -/
def padBytes (msg : List Nat) : List Nat :=
  msg ++ 0x80 :: List.replicate ((120 - (msg.length + 1) % 64) % 64) 0 ++ len8 (8 * msg.length)

/-- Pack big-endian bytes into 32-bit words. -/
def toWords : List Nat → List Nat
  | a :: b :: c :: d :: rest => (a * 16777216 + b * 65536 + c * 256 + d) :: toWords rest
  | _ => []

/-- Split the word stream into 16-word blocks (a padded message is always a
whole number of blocks). -/
def chunks16 : List Nat → List (List Nat)
  | w0 :: w1 :: w2 :: w3 :: w4 :: w5 :: w6 :: w7 ::
    w8 :: w9 :: w10 :: w11 :: w12 :: w13 :: w14 :: w15 :: rest =>
      [w0, w1, w2, w3, w4, w5, w6, w7, w8, w9, w10, w11, w12, w13, w14, w15] :: chunks16 rest
  | [] => []
  | l => [l]

/-- The eight 32-bit hash words of a byte message. -/
def hashWords (msg : List Nat) : List Nat :=
  (chunks16 (toWords (padBytes msg))).foldl compressBlock H0

/-- Big-endian bytes of one hash word. -/
def wordBytes (w : Nat) : List Nat :=
  [w / 16777216 % 256, w / 65536 % 256, w / 256 % 256, w % 256]

/-- The 32-byte SHA-256 digest of a byte message. -/
def digestBytes (msg : List Nat) : List Nat := ((hashWords msg).map wordBytes).flatten

end Service.SHA256

namespace Service

/-- A lower-case hexadecimal digit. -/
def hexDigit (n : Nat) : Char := if n < 10 then Char.ofNat (48 + n) else Char.ofNat (87 + n)

/-- Python `hashlib` `hexdigest` rendering of a digest. -/
def toHexChars (bs : List Nat) : List Char :=
  (bs.map (fun b => [hexDigit (b / 16), hexDigit (b % 16)])).flatten

/-- From ADR-001 "Caching Strategy" `get_cache_key`: the cache key is the
SHA-256 hex digest of `text.lower().strip()` (lower-cased, end-stripped) —
no further normalization before hashing. -/
def get_cache_key (text : List Char) : List Char :=
  toHexChars (SHA256.digestBytes (utf8Bytes (pyStrip (pyLower text))))

/-- Modelled from the spec (glossary / §4.3 fingerprint), for comparison with
the source's `get_cache_key`: the spec's normalization is the sanitized
(control characters stripped), lower-cased, whitespace-normalized text. -/
def specNormalize (l : List Char) : List Char := normalizeWs (stripControl (pyLower l))

end Service

namespace Web

/-- Upload-file metadata standing in for a browser `File` object. -/
structure FileV where
  name : String
  size : Nat
  mime : String
deriving DecidableEq, Repr

/-- From types/inquiry.ts `InquiryUrgency`. -/
inductive Urgency where
  | low
  | medium
  | high
deriving DecidableEq, Repr

/-- From types/inquiry.ts `InquiryStatus`. -/
inductive Status where
  | pending
  | reviewed
  | processed
  | archived
deriving DecidableEq, Repr

/-- From types/inquiry.ts `Language` (the UI locale: `'en' | 'jp'`). -/
inductive UiLanguage where
  | en
  | jp
deriving DecidableEq, Repr

/-- From types/inquiry.ts `InquiryCategory`. -/
inductive InquiryCategory where
  | quote_request
  | technical_spec
  | capability
  | partnership
deriving DecidableEq, Repr

/-- From types/inquiry.ts `Subcategory`. -/
structure Subcategory where
  name : String
  confidence : ℚ
deriving DecidableEq, Repr

/-- From types/inquiry.ts `Classification`. -/
structure Classification where
  category : InquiryCategory
  confidence : ℚ
  subcategories : List Subcategory
deriving DecidableEq, Repr

/-- From types/inquiry.ts `Inquiry` (`InquiryFormData` plus the server
fields); `Date` values are millisecond timestamps. -/
structure Inquiry where
  title : String
  description : String
  category : Option String
  urgency : Urgency
  attachments : Option (List FileV)
  contactEmail : String
  companyName : String
  language : UiLanguage
  id : String
  status : Status
  createdAt : Nat
  updatedAt : Nat
  classification : Option Classification
deriving DecidableEq, Repr

/-- TypeScript `Partial<Inquiry>`: for each field, `some v` exactly when the
key is present in the updates object. -/
structure InquiryUpdates where
  title : Option String := none
  description : Option String := none
  category : Option (Option String) := none
  urgency : Option Urgency := none
  attachments : Option (Option (List FileV)) := none
  contactEmail : Option String := none
  companyName : Option String := none
  language : Option UiLanguage := none
  id : Option String := none
  status : Option Status := none
  createdAt : Option Nat := none
  updatedAt : Option Nat := none
  classification : Option (Option Classification) := none
deriving Repr

/-- The object spread `{ ...inquiry, ...updates, updatedAt: new Date() }` of
`inquiryStore.updateInquiry`: present update fields override, and
`updatedAt` is always refreshed last (it wins even over an `updatedAt`
field in the updates). -/
def applyUpdates (u : InquiryUpdates) (now : Nat) (i : Inquiry) : Inquiry :=
  { title := u.title.getD i.title
    description := u.description.getD i.description
    category := u.category.getD i.category
    urgency := u.urgency.getD i.urgency
    attachments := u.attachments.getD i.attachments
    contactEmail := u.contactEmail.getD i.contactEmail
    companyName := u.companyName.getD i.companyName
    language := u.language.getD i.language
    id := u.id.getD i.id
    status := u.status.getD i.status
    createdAt := u.createdAt.getD i.createdAt
    updatedAt := now
    classification := u.classification.getD i.classification }

/-- From store/inquiryStore.ts: the state slice read and written by
`updateInquiry`. -/
structure InquiryState where
  inquiries : List Inquiry
  currentInquiry : Option Inquiry
  isLoading : Bool
  error : Option String
deriving Repr

/-- From store/inquiryStore.ts `updateInquiry` (optimistic update): map over
`inquiries` merging the updates into the inquiry whose id matches, and
rebuild `currentInquiry` by the same merge when its id matches
(`currentInquiry?.id === id`; a null `currentInquiry` stays null). -/
def updateInquiry (iid : String) (u : InquiryUpdates) (now : Nat)
    (st : InquiryState) : InquiryState :=
  { st with
    inquiries := st.inquiries.map (fun i => if i.id = iid then applyUpdates u now i else i)
    currentInquiry :=
      match st.currentInquiry with
      | some c => some (if c.id = iid then applyUpdates u now c else c)
      | none => none }

/-- A concrete inquiry used by the C9 witness. -/
def inqA : Inquiry :=
  { title := "Bulk Order"
    description := "Bulk order for precision bearings"
    category := none
    urgency := Urgency.medium
    attachments := none
    contactEmail := "a@example.com"
    companyName := "Acme"
    language := UiLanguage.en
    id := "INQ-1"
    status := Status.pending
    createdAt := 0
    updatedAt := 0
    classification := none }

/-- A second concrete inquiry used by the C9 witness. -/
def inqB : Inquiry :=
  { inqA with id := "INQ-2", title := "Tolerances" }

/-- A concrete store state used by the C9 witness. -/
def stEx : InquiryState :=
  { inquiries := [inqA, inqB], currentInquiry := some inqA, isLoading := false, error := none }

/-- A concrete updates object used by the C9 witness. -/
def updEx : InquiryUpdates := { status := some Status.processed }

end Web

namespace Service

theorem mkClassificationResult_fallback_flag {scores lang kws ptime fb r}
    (h : mkClassificationResult scores lang kws ptime fb = some r) :
    r.fallback_used = fb := by
  unfold mkClassificationResult at h
  cases hr : rankCategories scores with
  | nil => rw [hr] at h; exact absurd h (by simp)
  | cons top rest =>
    rw [hr] at h
    cases h
    rfl

/-- Claim C4: every `ClassificationResult` assembled by the service has its
`all_categories` list sorted in descending order of confidence, its first
element equal to `(primary_category, confidence)`, and every listed pair with
confidence strictly above 0.1. -/
theorem allCategories_invariant (scores : List (Category × ℚ)) (lang : Lang)
    (kws : List String) (ptime : Nat) (fb : Bool) (r : ClassificationResult)
    (h : mkClassificationResult scores lang kws ptime fb = some r) :
    List.Sorted confGE r.all_categories
    ∧ r.all_categories.head? = some (r.primary_category, r.confidence)
    ∧ ∀ p ∈ r.all_categories, mkRat 1 10 < p.2 := by
  unfold mkClassificationResult at h
  cases hr : rankCategories scores with
  | nil => rw [hr] at h; exact absurd h (by simp)
  | cons top rest =>
    rw [hr] at h
    cases h
    have hsorted : List.Sorted confGE (rankCategories scores) :=
      List.sorted_insertionSort confGE _
    have hperm : (rankCategories scores).Perm
        (scores.filter (fun p => decide (mkRat 1 10 < p.2))) :=
      List.perm_insertionSort confGE _
    refine ⟨by rw [← hr]; exact hsorted, rfl, ?_⟩
    intro p hp
    have hmem : p ∈ scores.filter (fun p => decide (mkRat 1 10 < p.2)) :=
      hperm.mem_iff.mp (by rw [hr]; exact hp)
    have := List.of_mem_filter hmem
    simpa using this

/-- Witness for C4 at a concrete score list. -/
theorem allCategories_invariant_witness :
    List.Sorted confGE [(Category.QUOTE_REQUEST, mkRat 9 10), (Category.TECHNICAL_SPECIFICATION, mkRat 3 10)]
    ∧ ([(Category.QUOTE_REQUEST, mkRat 9 10), (Category.TECHNICAL_SPECIFICATION, mkRat 3 10)] : List (Category × ℚ)).head?
        = some (Category.QUOTE_REQUEST, mkRat 9 10)
    ∧ ∀ p ∈ [(Category.QUOTE_REQUEST, mkRat 9 10), (Category.TECHNICAL_SPECIFICATION, mkRat 3 10)], mkRat 1 10 < p.2 :=
  allCategories_invariant
    [(Category.QUOTE_REQUEST, mkRat 9 10), (Category.GENERAL_INQUIRY, mkRat 1 20), (Category.TECHNICAL_SPECIFICATION, mkRat 3 10)]
    Lang.en [] 5 false
    { primary_category := Category.QUOTE_REQUEST
      confidence := mkRat 9 10
      all_categories := [(Category.QUOTE_REQUEST, mkRat 9 10), (Category.TECHNICAL_SPECIFICATION, mkRat 3 10)]
      detected_language := Lang.en
      suggested_keywords := []
      processing_time_ms := 5
      fallback_used := false }
    (by decide)

/-- Claim C3: on store, the TTL is selected by confidence band — 24 h for
confidence ≥ 0.9, 1 h for confidence in [0.7, 0.9), nothing cached below 0.7
— and a result stored with confidence < 0.7 is never found by a subsequent
lookup of the same fingerprint. -/
theorem cache_ttl_by_confidence_band (c : Cache) (fp : Fingerprint)
    (r : ClassificationResult) (now : ℚ) :
    (mkRat 9 10 ≤ r.confidence →
      store c fp r now fp = some { result := r, expires_at := now + 86400 })
    ∧ (mkRat 7 10 ≤ r.confidence → r.confidence < mkRat 9 10 →
      store c fp r now fp = some { result := r, expires_at := now + 3600 })
    ∧ (r.confidence < mkRat 7 10 → store c fp r now = c)
    ∧ (r.confidence < mkRat 7 10 → c fp = none →
      ∀ t : ℚ, lookup (store c fp r now) fp t = none) := by
  have h79 : (mkRat 7 10 : ℚ) ≤ mkRat 9 10 := by norm_num [mkRat]
  refine ⟨?_, ?_, ?_, ?_⟩
  · intro h1
    simp [store, ttlFor, h1]
  · intro h1 h2
    simp [store, ttlFor, h1, not_le.mpr h2]
  · intro h1
    simp [store, ttlFor, not_le.mpr h1, not_le.mpr (lt_of_lt_of_le h1 h79)]
  · intro h1 hnone t
    have hst : store c fp r now = c := by
      simp [store, ttlFor, not_le.mpr h1, not_le.mpr (lt_of_lt_of_le h1 h79)]
    rw [hst]
    simp [lookup, hnone]

/-- Witness for C3: a confidence-0.5 result stored into an empty cache is not
found by a later lookup. -/
theorem cache_ttl_by_confidence_band_witness :
    lookup (store emptyCache (['f'] : Fingerprint) lowConfResult 0) ['f'] 5 = none :=
  (cache_ttl_by_confidence_band emptyCache ['f'] lowConfResult 0).2.2.2 (by decide) rfl 5

/-- Claim C5: admission refills proportionally to elapsed time capped at
capacity (the bucket never exceeds capacity), deducts one token and returns
Allowed when at least one is available, and otherwise returns Denied carrying
the positive time until one token will be available. -/
theorem tryAcquire_token_bucket (b : RateBucket) (now : ℚ) (hr : 0 < b.refill_rate) :
    ((tryAcquire b now).2.tokens ≤ b.capacity)
    ∧ (1 ≤ refill b now →
        (tryAcquire b now).1 = RateDecision.allowed
        ∧ (tryAcquire b now).2.tokens = refill b now - 1)
    ∧ (refill b now < 1 →
        (tryAcquire b now).1 = RateDecision.denied ((1 - refill b now) / b.refill_rate)
        ∧ 0 < (1 - refill b now) / b.refill_rate
        ∧ refill (tryAcquire b now).2 (now + (1 - refill b now) / b.refill_rate)
            = min b.capacity 1) := by
  have hmin : refill b now ≤ b.capacity := min_le_left _ _
  refine ⟨?_, ?_, ?_⟩
  · by_cases h : 1 ≤ refill b now
    · simp only [tryAcquire, if_pos h]
      exact le_trans (sub_le_self _ zero_le_one) hmin
    · simp only [tryAcquire, if_neg h]
      exact hmin
  · intro h
    simp [tryAcquire, h]
  · intro h
    have hne : ¬ 1 ≤ refill b now := not_le.mpr h
    refine ⟨by simp [tryAcquire, hne], div_pos (by linarith) hr, ?_⟩
    simp only [tryAcquire, if_neg hne]
    show min b.capacity (refill b now + (now + (1 - refill b now) / b.refill_rate - now) * b.refill_rate) = _
    have hcanc : (now + (1 - refill b now) / b.refill_rate - now) * b.refill_rate
        = 1 - refill b now := by
      field_simp
      ring
    rw [hcanc]
    have hone : refill b now + (1 - refill b now) = 1 := by ring
    rw [hone]

/-- Witness for C5: a drained bucket denies the request with a positive
retry-after. -/
theorem tryAcquire_token_bucket_witness :
    (tryAcquire drainedBucket 0).1
        = RateDecision.denied ((1 - refill drainedBucket 0) / drainedBucket.refill_rate)
    ∧ 0 < (1 - refill drainedBucket 0) / drainedBucket.refill_rate
    ∧ refill (tryAcquire drainedBucket 0).2 (0 + (1 - refill drainedBucket 0) / drainedBucket.refill_rate)
        = min drainedBucket.capacity 1 :=
  (tryAcquire_token_bucket drainedBucket 0 (by simp [drainedBucket])).2.2
    (by simp [refill, drainedBucket])

/-- The fallback rule classifier marks every one of its results as a
fallback result. -/
theorem classify_fallback_always_fallback (text : List Char) (lang : Lang) :
    (classify_fallback text lang).fallback_used = true := by
  cases hm : mkClassificationResult (fallbackScores (pyLower text)) lang [] 0 true with
  | some r =>
    simp only [classify_fallback, hm]
    exact mkClassificationResult_fallback_flag hm
  | none =>
    simp [classify_fallback, hm]

/-- Claim C1: on a cache miss with the rate gate passed, an LLM adapter
failure (Timeout, ProviderError or ParseError) is absorbed: the orchestrator
still returns the fallback rule classifier's result with
`fallback_used = true`, never an error (the return type of `orchestrate` has
no failure case). -/
theorem orchestrate_absorbs_llm_failure (text : List Char) (lang : Lang)
    (cache : Cache) (fp : Fingerprint) (now floor : ℚ) (e : LlmError)
    (hmiss : lookup cache fp now = none) :
    (orchestrate text lang cache fp now RateDecision.allowed (Except.error e) floor).1
      = classify_fallback text lang
    ∧ (orchestrate text lang cache fp now RateDecision.allowed (Except.error e) floor).1.fallback_used
      = true := by
  have h1 : (orchestrate text lang cache fp now RateDecision.allowed (Except.error e) floor).1
      = classify_fallback text lang := by
    simp [orchestrate, hmiss]
  exact ⟨h1, by rw [h1]; exact classify_fallback_always_fallback text lang⟩

/-- Witness for C1: an LLM timeout on an empty cache yields the fallback
result, flagged as such. -/
theorem orchestrate_absorbs_llm_failure_witness :
    (orchestrate ("can you mill aluminum".toList) Lang.en emptyCache ['f'] 0
        RateDecision.allowed (Except.error LlmError.Timeout) (mkRat 7 10)).1
      = classify_fallback ("can you mill aluminum".toList) Lang.en
    ∧ (orchestrate ("can you mill aluminum".toList) Lang.en emptyCache ['f'] 0
        RateDecision.allowed (Except.error LlmError.Timeout) (mkRat 7 10)).1.fallback_used
      = true :=
  orchestrate_absorbs_llm_failure ("can you mill aluminum".toList) Lang.en emptyCache
    ['f'] 0 (mkRat 7 10) LlmError.Timeout rfl

/-- Claim C2: in every reachable state of the single-flight mechanism, at
most one upstream LLM classification is outstanding per fingerprint: a
concurrent request for a fingerprint with a classification already in flight
cannot start a second upstream call. -/
theorem single_flight_invariant (s : FlightState) (h : FlightReachable s)
    (fp : Fingerprint) : s.inflight fp ≤ 1 := by
  induction h with
  | init => exact Nat.zero_le 1
  | step hreach hstep ih =>
    cases hstep with
    | start fp0 h0 =>
      dsimp only
      split
      next hk => exact Nat.le_refl 1
      next hk => exact ih
    | finish fp0 h0 =>
      dsimp only
      split
      next hk =>
        subst hk
        omega
      next hk => exact ih

/-- Witness for C2: the state reached by starting one classification for a
fingerprint still has at most one in flight for it. -/
theorem single_flight_invariant_witness :
    (FlightState.mk fun k => if k = (['f'] : Fingerprint) then 1
        else initialFlightState.inflight k).inflight ['f'] ≤ 1 :=
  single_flight_invariant _
    (FlightReachable.step FlightReachable.init (FlightStep.start initialFlightState ['f'] rfl))
    ['f']

/-- Claim C6: input validation fails exactly on texts outside the 10–5000
character bounds — shorter than 10 gives `TooShort`, longer than 5000 gives
`TooLong`, and everything in bounds is accepted. -/
theorem sanitize_length_bounds (text : List Char) :
    (text.length < 10 → sanitize text = Except.error ValidationError.TooShort)
    ∧ (5000 < text.length → sanitize text = Except.error ValidationError.TooLong)
    ∧ (10 ≤ text.length → text.length ≤ 5000 →
        sanitize text = Except.ok (normalizeWs (stripControl text)))
    ∧ (∀ e, sanitize text = Except.error e → text.length < 10 ∨ 5000 < text.length) := by
  refine ⟨?_, ?_, ?_, ?_⟩
  · intro h
    simp [sanitize, h]
  · intro h
    have : ¬ text.length < 10 := by omega
    simp [sanitize, this, h]
  · intro h1 h2
    have h1n : ¬ text.length < 10 := by omega
    have h2n : ¬ 5000 < text.length := by omega
    simp [sanitize, h1n, h2n]
  · intro e he
    by_contra hcon
    push_neg at hcon
    obtain ⟨ha, hb⟩ := hcon
    have h1n : ¬ text.length < 10 := by omega
    have h2n : ¬ 5000 < text.length := by omega
    simp [sanitize, h1n, h2n] at he

/-- Witness for C6: a five-character input is rejected as TooShort. -/
theorem sanitize_length_bounds_witness :
    sanitize (['h', 'e', 'l', 'l', 'o'] : List Char) = Except.error ValidationError.TooShort :=
  (sanitize_length_bounds ['h', 'e', 'l', 'l', 'o']).1 (by decide)

/-- Claim C8: the language detector is total — it returns exactly one of
`en`, `ja`, `other` for every input, and defaults to `other` on input it
cannot resolve. -/
theorem detect_total_and_defaults (text : List Char) :
    (detect text = Lang.en ∨ detect text = Lang.ja ∨ detect text = Lang.other)
    ∧ (text.any isCJK = false → latinHeavy text = false → detect text = Lang.other) := by
  constructor
  · by_cases h1 : text.any isCJK
    · right; left; simp [detect, h1]
    · by_cases h2 : latinHeavy text
      · left; simp [detect, h1, h2]
      · right; right; simp [detect, h1, h2]
  · intro h1 h2
    simp [detect, h1, h2]

/-- Witness for C8: digits resolve to neither script and default to
`other`. -/
theorem detect_total_and_defaults_witness :
    detect (['1', '2', '3'] : List Char) = Lang.other :=
  (detect_total_and_defaults ['1', '2', '3']).2 (by decide) (by decide)

/-- Claim C7 counterexample: the texts "a  b" and "a b" are equal after the
spec's sanitize + lower-case + whitespace-normalize pipeline, yet ADR-001's
`get_cache_key` — which only lower-cases and strips end whitespace before
hashing — assigns them different fingerprints, so they occupy two cache
entries. -/
theorem get_cache_key_whitespace_counterexample :
    specNormalize ['a', ' ', ' ', 'b'] = specNormalize ['a', ' ', 'b']
    ∧ get_cache_key ['a', ' ', ' ', 'b'] ≠ get_cache_key ['a', ' ', 'b'] := by
  constructor
  · decide
  · decide

/-- Claim C7 (amended): two texts that are equal after lower-casing and
stripping leading/trailing whitespace — the normalization `get_cache_key`
actually performs — receive the same cache fingerprint. -/
theorem get_cache_key_congr (t1 t2 : List Char)
    (h : pyStrip (pyLower t1) = pyStrip (pyLower t2)) :
    get_cache_key t1 = get_cache_key t2 := by
  unfold get_cache_key
  rw [h]

/-- Witness for the amended C7: "A b " and " a b" collapse to the same
fingerprint. -/
theorem get_cache_key_congr_witness :
    get_cache_key ['A', ' ', 'b', ' '] = get_cache_key [' ', 'a', ' ', 'b'] :=
  get_cache_key_congr ['A', ' ', 'b', ' '] [' ', 'a', ' ', 'b'] (by decide)

end Service

namespace Web

/-- Claim C9: `updateInquiry` modifies exactly the inquiry whose id matches —
it becomes the merge of its fields with the updates plus a refreshed
`updatedAt`, every other inquiry is unchanged at its position, and
`currentInquiry` is rebuilt by the same merge precisely when its id equals
the given id (a null `currentInquiry` stays null). -/
theorem updateInquiry_frame (st : InquiryState) (iid : String)
    (u : InquiryUpdates) (now : Nat) :
    (∀ (n : Nat) (i : Inquiry), st.inquiries[n]? = some i → i.id ≠ iid →
        (updateInquiry iid u now st).inquiries[n]? = some i)
    ∧ (∀ (n : Nat) (i : Inquiry), st.inquiries[n]? = some i → i.id = iid →
        (updateInquiry iid u now st).inquiries[n]? = some (applyUpdates u now i))
    ∧ (updateInquiry iid u now st).currentInquiry
        = st.currentInquiry.map (fun c => if c.id = iid then applyUpdates u now c else c) := by
  refine ⟨?_, ?_, ?_⟩
  · intro n i hn hne
    simp [updateInquiry, List.getElem?_map, hn, hne]
  · intro n i hn heq
    simp [updateInquiry, List.getElem?_map, hn, heq]
  · cases hc : st.currentInquiry with
    | none => simp [updateInquiry, hc]
    | some c => simp [updateInquiry, hc]

/-- Witness for C9: updating "INQ-1" leaves "INQ-2" untouched at its
position in the list. -/
theorem updateInquiry_frame_witness :
    (updateInquiry "INQ-1" updEx 99 stEx).inquiries[1]? = some inqB :=
  (updateInquiry_frame stEx "INQ-1" updEx 99).1 1 inqB (by rfl) (by decide)

end Web
